import Mathlib

/-!
Verification development for the chart-backend JSON document store
(`src/server.js` and its sibling variants `src/server_latest.js`,
`src/server_advance.js`).  Each relevant server routine is embedded as a
pure Lean function over an explicit model of the per-tenant filesystem
state: files are threaded as explicit state, the request clock and the
UUID generator are passed as inputs, and fallible steps return the same
uniform response envelope the handlers build with `sendResponse`.
Theorems at the end of the file settle the specification claims against
these definitions.
-/

namespace ChartBackend

/-- JSON values as delivered by the `express.json` body-parsing layer and
as stored in blob files.  Number lexemes are kept verbatim, since the
handlers never compute with payload numbers. -/
inductive Json where
  | null
  | bool (b : Bool)
  | num (lexeme : String)
  | str (s : String)
  | arr (elems : List Json)
  | obj (fields : List (String × Json))

instance : Inhabited Json := ⟨Json.null⟩

/-- JavaScript test `data && typeof data === "object"` on a JSON value:
`typeof` is `"object"` for objects, arrays and `null`, and `null` is falsy,
so the test accepts exactly objects and arrays. -/
def Json.isObjLike : Json → Bool
  | .obj _ => true
  | .arr _ => true
  | _ => false

/-! ## Namespace Resolver (`server.js` lines 30-53) -/

/-- Characters the second `replace` of `sanitizeHost` preserves: the
regex class `[a-zA-Z0-9.-]`. -/
def hostAllowed (c : Char) : Bool :=
  c.isAlphanum || c = '.' || c = '-'

/-- Characters safe for a filesystem path segment, as produced by
`sanitizeHost`: the preserved class plus the replacement `_`. -/
def fsSafe (c : Char) : Bool :=
  hostAllowed c || c = '_'

/-- One character step of `sanitizeHost` (`server.js` lines 30-32): the
first `replace(/:/g, "-")` turns every `:` into `-`; the second
`replace(/[^a-zA-Z0-9.-]/g, "_")` turns every character outside the
preserved class into `_`.  Both regexes act independently per character,
so their composition is a character map. -/
def sanitizeChar (c : Char) : Char :=
  if c = ':' then '-'
  else if hostAllowed c then c
  else '_'

/-- `sanitizeHost` of `server.js`:
`host.replace(/:/g, "-").replace(/[^a-zA-Z0-9.-]/g, "_")`. -/
def sanitizeHost (host : String) : String :=
  String.mk (host.data.map sanitizeChar)

/-- ASCII lowercasing, as the WHATWG `URL` constructor applies to scheme
and hostname. -/
def asciiLower (s : String) : String :=
  String.mk (s.data.map Char.toLower)

/-- Splits a character list at the first occurrence of `"://"`; `none`
when the marker is absent (the `URL` constructor then throws for an
origin-shaped input). -/
def breakScheme : List Char → Option (List Char × List Char)
  | [] => none
  | ':' :: '/' :: '/' :: rest => some ([], rest)
  | c :: rest =>
      match breakScheme rest with
      | some (a, b) => some (c :: a, b)
      | none => none

/-- Characters legal in a URL scheme after the leading letter. -/
def schemeCharOk (c : Char) : Bool :=
  c.isAlphanum || c = '+' || c = '-' || c = '.'

/-- A URL scheme is a letter followed by letters, digits, `+`, `-`, `.`. -/
def schemeOk : List Char → Bool
  | [] => false
  | c :: rest => c.isAlpha && rest.all schemeCharOk

/-- Splits an authority at the first `:`; the second component is `none`
when no colon is present. -/
def breakColon : List Char → List Char × Option (List Char)
  | [] => ([], none)
  | ':' :: rest => ([], some rest)
  | c :: rest =>
      let p := breakColon rest
      (c :: p.1, p.2)

/-- Default ports the WHATWG `URL` constructor elides from `url.port`. -/
def isDefaultPort (scheme : String) (n : Nat) : Bool :=
  (scheme = "http" && n = 80) || (scheme = "https" && n = 443) ||
  (scheme = "ws" && n = 80) || (scheme = "wss" && n = 443) ||
  (scheme = "ftp" && n = 21)

/-- Numeric value of a digit string. -/
def digitsToNat (ds : List Char) : Nat :=
  ds.foldl (fun acc c => acc * 10 + (c.toNat - '0'.toNat)) 0

/-- Fields of a parsed URL that `getEffectiveHost` consults.  `port` is
the string Node exposes as `url.port`: empty when the input carries no
port, an empty port, or the scheme's default port (Node normalizes the
port to a number and elides defaults). -/
structure URLInfo where
  scheme : String
  hostname : String
  port : String
deriving DecidableEq, Repr

/-- Model of `new URL(origin)` restricted to the shapes an Origin header
takes (`scheme://host[:port][/...]`): scheme and hostname are lowercased,
the port must be numeric and at most 65535, and default ports are elided
from `port` exactly as Node does.  `none` models the constructor
throwing, which `getEffectiveHost` catches. -/
def parseOriginURL (origin : String) : Option URLInfo :=
  match breakScheme origin.data with
  | none => none
  | some (schemeCs, rest) =>
      if schemeOk schemeCs then
        let scheme := asciiLower (String.mk schemeCs)
        let auth := rest.takeWhile (fun c => c ≠ '/')
        let hp := breakColon auth
        if hp.1.isEmpty then none
        else
          let hostname := asciiLower (String.mk hp.1)
          match hp.2 with
          | none => some ⟨scheme, hostname, ""⟩
          | some [] => some ⟨scheme, hostname, ""⟩
          | some ds =>
              if ds.all Char.isDigit then
                let n := digitsToNat ds
                if n ≤ 65535 then
                  some ⟨scheme, hostname,
                        if isDefaultPort scheme n then "" else toString n⟩
                else none
              else none
      else none

/-- The request signals `getEffectiveHost` consults: the `x-host`
override header, the `origin` header, and the transport host header
(with `req.hostname` folded into the final fallback string). -/
structure ReqHeaders where
  xHost : Option String
  origin : Option String
  host : String
deriving DecidableEq, Repr

/-- The origin branch of `getEffectiveHost` (`server.js` lines 41-49):
`sanitizeHost(url.hostname + ":" + (url.port || "80"))`; `none` when URL
parsing throws. -/
def originTenantKey (origin : String) : Option String :=
  (parseOriginURL origin).map fun u =>
    sanitizeHost (u.hostname ++ ":" ++ (if u.port = "" then "80" else u.port))

/-- Origin-or-host part of `getEffectiveHost`: a truthy `origin` header
is parsed as a URL; on parse failure (or no origin) resolution falls
through to the sanitized transport host. -/
def hostOrOriginKey (req : ReqHeaders) : String :=
  match req.origin with
  | some o =>
      if o ≠ "" then
        match originTenantKey o with
        | some k => k
        | none => sanitizeHost req.host
      else sanitizeHost req.host
  | none => sanitizeHost req.host

/-- `getEffectiveHost` (`server.js` lines 35-53): a truthy `x-host`
header wins outright; else the origin header is consulted; else the
transport host. -/
def getEffectiveHost (req : ReqHeaders) : String :=
  match req.xHost with
  | some x => if x ≠ "" then sanitizeHost x else hostOrOriginKey req
  | none => hostOrOriginKey req

/-- Whitespace removed by JavaScript `String.prototype.trim`. -/
def jsWsChar (c : Char) : Bool :=
  c = ' ' || c = '\t' || c = '\n' || c = '\r' || c = '\x0b' || c = '\x0c'

/-- JavaScript `s.trim()`. -/
def trimWs (s : String) : String :=
  String.mk (((s.data.dropWhile jsWsChar).reverse.dropWhile jsWsChar).reverse)

/-! ## Metadata index and tenant storage state (`server.js` lines 56-80) -/

/-- One entry of a tenant's `fileIndex.json`, as built by the
`/save-json` handler.  All five fields are strings; `createdAt` and
`updatedAt` hold ISO-8601 timestamps from `new Date().toISOString()`. -/
structure FileRecord where
  id : String
  filename : String
  displayName : String
  createdAt : String
  updatedAt : String
deriving DecidableEq, Repr

/-- Blob files of one tenant directory: an association from filename to
the JSON value the file holds (`JSON.parse` and `JSON.stringify` are
treated as exact inverses for stored payloads). -/
abbrev Blobs := List (String × Json)

/-- The logical content of one tenant directory: the parsed metadata
index plus the blob files. -/
structure TenantState where
  meta : List FileRecord
  blobs : Blobs

/-- A fresh tenant directory, as `getDomainPaths` provisions it: an
empty index and no blobs. -/
def emptyTenant : TenantState := ⟨[], []⟩

/-- The whole storage root `ahc_charts_db`: one tenant directory per
sanitized tenant key. -/
abbrev Store := List (String × TenantState)

/-- Tenant directory lookup by key (directory names are exact). -/
def findTenant : Store → String → Option TenantState
  | [], _ => none
  | (k', ts) :: rest, k => if k' = k then some ts else findTenant rest k

/-- Replaces (or appends) the directory for key `k`. -/
def setTenant : Store → String → TenantState → Store
  | [], k, ts => [(k, ts)]
  | (k', ts') :: rest, k, ts =>
      if k' = k then (k, ts) :: rest else (k', ts') :: setTenant rest k ts

/-- `getDomainPaths`' provisioning effect (`server.js` lines 56-66):
creates the tenant directory and an empty index when absent; an existing
tenant is untouched. -/
def ensureTenant (st : Store) (k : String) : Store :=
  match findTenant st k with
  | some _ => st
  | none => st ++ [(k, emptyTenant)]

/-- The tenant directory an operation works on after provisioning. -/
def getTenant (st : Store) (k : String) : TenantState :=
  (findTenant st k).getD emptyTenant

/-- Blob file read by filename. -/
def getBlob : Blobs → String → Option Json
  | [], _ => none
  | (f, j) :: rest, fn => if f = fn then some j else getBlob rest fn

/-- `fs.writeFileSync` on a blob: overwrites the file, creating it when
absent. -/
def setBlob : Blobs → String → Json → Blobs
  | [], fn, j => [(fn, j)]
  | (f, j') :: rest, fn, j =>
      if f = fn then (fn, j) :: rest else (f, j') :: setBlob rest fn j

/-- `fs.unlinkSync` guarded by `fs.existsSync`: removes the file when
present, a no-op otherwise. -/
def removeBlob (bs : Blobs) (fn : String) : Blobs :=
  bs.filter (fun b => b.1 ≠ fn)

/-! ## Uniform response envelope (`sendResponse`, `server.js` lines 83-85) -/

/-- The envelope every file handler returns:
`res.status(statusCode).json({ status, data, message, statusCode })`. -/
structure ApiResp (α : Type) where
  status : Bool
  data : Option α
  message : String
  statusCode : Nat
deriving Repr

/-! ## File handlers of `server.js` (host-scoped variant)

Each handler takes the already-resolved tenant key (the handlers all
start with `getEffectiveHost` + `getDomainPaths`), the decoded request
body fields, and the values the impure generators return during the
call: each `new Date().toISOString()` read and the `uuidv4()` draw are
explicit inputs.  The result pairs the response with the poststate. -/

/-- `app.post("/save-json")` (`server.js` lines 91-134).  `nowA` and
`nowB` are the two separate `new Date().toISOString()` reads used for
`createdAt` and `updatedAt`; `newId` is the `uuidv4()` draw.
`displayName` is `none` when the body field is absent. -/
def saveJson (st : Store) (key : String) (displayName : Option String)
    (data : Option Json) (nowA nowB : String) (newId : String) :
    ApiResp FileRecord × Store :=
  let st1 := ensureTenant st key
  let ts := getTenant st1 key
  match data with
  | none => (⟨false, none, "Invalid JSON format", 400⟩, st1)
  | some d =>
    if ¬ d.isObjLike then (⟨false, none, "Invalid JSON format", 400⟩, st1)
    else
      match displayName with
      | none => (⟨false, none, "Report name is required", 400⟩, st1)
      | some name =>
        if trimWs name = "" then
          (⟨false, none, "Report name is required", 400⟩, st1)
        else if ts.meta.any (fun file => file.displayName = name) then
          (⟨false, none, "Report name already used, choose another", 400⟩, st1)
        else
          let fileName := newId ++ ".json"
          let newFileInfo : FileRecord := ⟨newId, fileName, name, nowA, nowB⟩
          let ts' : TenantState :=
            ⟨ts.meta ++ [newFileInfo], setBlob ts.blobs fileName d⟩
          (⟨true, some newFileInfo,
            "JSON saved successfully for host " ++ key, 200⟩,
           setTenant st1 key ts')

/-- Insertion step for the list sort. -/
def insertByCreatedDesc (r : FileRecord) : List FileRecord → List FileRecord
  | [] => [r]
  | x :: xs =>
      if r.createdAt ≤ x.createdAt then x :: insertByCreatedDesc r xs
      else r :: x :: xs

/-- The `/files` sort `(a, b) => new Date(b.createdAt) - new Date(a.createdAt)`:
descending by creation time.  ISO-8601 timestamps of the fixed
`toISOString` format order chronologically as strings. -/
def sortByCreatedDesc (l : List FileRecord) : List FileRecord :=
  l.foldr insertByCreatedDesc []

/-- `app.get("/files")` (`server.js` lines 138-147): the index sorted by
creation date, newest first. -/
def listFiles (st : Store) (key : String) :
    ApiResp (List FileRecord) × Store :=
  let st1 := ensureTenant st key
  let ts := getTenant st1 key
  (⟨true, some (sortByCreatedDesc ts.meta),
    "Files retrieved successfully for host " ++ key, 200⟩, st1)

/-- `app.get("/file/:id")` (`server.js` lines 150-167): finds the record
by id, then reads the blob file named by the record. -/
def getFile (st : Store) (key : String) (id : String) :
    ApiResp (FileRecord × Json) × Store :=
  let st1 := ensureTenant st key
  let ts := getTenant st1 key
  match ts.meta.find? (fun m => m.id = id) with
  | none => (⟨false, none, "File not found", 404⟩, st1)
  | some fileMeta =>
    match getBlob ts.blobs fileMeta.filename with
    | none => (⟨false, none, "File not found on disk", 404⟩, st1)
    | some jsonData =>
        (⟨true, some (fileMeta, jsonData),
          "File retrieved for host " ++ key, 200⟩, st1)

/-- In-place mutation of the record object `find` located: rewrites the
first record carrying `id`, the rest of the array is untouched. -/
def updateFirstById (id : String) (f : FileRecord → FileRecord) :
    List FileRecord → List FileRecord
  | [] => []
  | m :: ms =>
      if m.id = id then f m :: ms else m :: updateFirstById id f ms

/-- Shared tail of the `/file/:id` PUT handler once the checks have
passed: optional blob overwrite (`if (data && typeof data === "object")`
— a supplied non-object `data` is silently ignored), `updatedAt`
refresh from the single clock read, metadata write-back. -/
def finishPut (st1 : Store) (key : String) (ts : TenantState)
    (fileMeta : FileRecord) (id : String) (data : Option Json)
    (newName : String) (now : String) : ApiResp FileRecord × Store :=
  let blobs' :=
    match data with
    | some d =>
        if d.isObjLike then setBlob ts.blobs fileMeta.filename d
        else ts.blobs
    | none => ts.blobs
  let fileMeta' : FileRecord :=
    { fileMeta with displayName := newName, updatedAt := now }
  let meta' := updateFirstById id (fun m =>
    { m with displayName := newName, updatedAt := now }) ts.meta
  (⟨true, some fileMeta', "File updated successfully for host " ++ key, 200⟩,
   setTenant st1 key ⟨meta', blobs'⟩)

/-- `app.put("/file/:id")` (`server.js` lines 169-217).  A truthy
`newDisplayName` differing from the current one is checked for
collisions against the other records and applied; the payload handling
and `updatedAt` refresh are in `finishPut`. -/
def putFile (st : Store) (key : String) (id : String)
    (data : Option Json) (newDisplayName : Option String) (now : String) :
    ApiResp FileRecord × Store :=
  let st1 := ensureTenant st key
  let ts := getTenant st1 key
  match ts.meta.find? (fun m => m.id = id) with
  | none => (⟨false, none, "File not found", 404⟩, st1)
  | some fileMeta =>
    match getBlob ts.blobs fileMeta.filename with
    | none => (⟨false, none, "File not found on disk", 404⟩, st1)
    | some _ =>
      match newDisplayName with
      | some n =>
        if n ≠ "" ∧ n ≠ fileMeta.displayName then
          if ts.meta.any (fun m => m.displayName = n ∧ m.id ≠ id) then
            (⟨false, none,
              "Report name already used, choose a different name", 400⟩, st1)
          else finishPut st1 key ts fileMeta id data n now
        else finishPut st1 key ts fileMeta id data fileMeta.displayName now
      | none => finishPut st1 key ts fileMeta id data fileMeta.displayName now

/-- `app.delete("/file/:id")` (`server.js` lines 222-240): 404 when no
record matches; otherwise the blob is unlinked when present (a missing
blob is not an error), the record is filtered out of the index, and the
index is persisted. -/
def deleteFile (st : Store) (key : String) (id : String) :
    ApiResp String × Store :=
  let st1 := ensureTenant st key
  let ts := getTenant st1 key
  match ts.meta.find? (fun m => m.id = id) with
  | none => (⟨false, none, "File not found", 404⟩, st1)
  | some fileMeta =>
      let ts' : TenantState :=
        ⟨ts.meta.filter (fun m => m.id ≠ id),
         removeBlob ts.blobs fileMeta.filename⟩
      (⟨true, some id, "File deleted successfully for host " ++ key, 200⟩,
       setTenant st1 key ts')

/-! ## The single-tenant variant `server_latest.js` (PUT handler) -/

/-- `app.put("/file/:id")` of `server_latest.js` (lines 123-156), the
single-tenant variant: a missing or non-object `data` fails up front
with 400 "Invalid JSON format"; otherwise the blob is overwritten, the
display name replaced when truthy (no uniqueness check in this
variant), and `updatedAt` refreshed from the clock read `now`. -/
def putFileLatest (ts : TenantState) (id : String) (data : Option Json)
    (newDisplayName : Option String) (now : String) :
    ApiResp FileRecord × TenantState :=
  match data with
  | none => (⟨false, none, "Invalid JSON format", 400⟩, ts)
  | some d =>
    if ¬ d.isObjLike then (⟨false, none, "Invalid JSON format", 400⟩, ts)
    else
      match ts.meta.find? (fun m => m.id = id) with
      | none => (⟨false, none, "File not found", 404⟩, ts)
      | some fileMeta =>
        match getBlob ts.blobs fileMeta.filename with
        | none => (⟨false, none, "File not found on disk", 404⟩, ts)
        | some _ =>
          let blobs' := setBlob ts.blobs fileMeta.filename d
          let newName :=
            match newDisplayName with
            | some n => if n ≠ "" then n else fileMeta.displayName
            | none => fileMeta.displayName
          let fileMeta' : FileRecord :=
            { fileMeta with displayName := newName, updatedAt := now }
          let meta' := updateFirstById id (fun m =>
            { m with displayName := newName, updatedAt := now }) ts.meta
          (⟨true, some fileMeta', "File updated successfully", 200⟩,
           ⟨meta', blobs'⟩)

/-! ## Config Document Manager (`server.js` lines 245-321) -/

/-- Per-tenant `config.json` files, keyed by tenant key. -/
abbrev Configs := List (String × Json)

/-- `validateConfig` (`server.js` lines 257-259):
`typeof config === "object" && config !== null`, true for JSON objects
and arrays. -/
def validateConfig (j : Json) : Bool := j.isObjLike

/-- The truthiness-and-keys test of the POST `/config` handler:
`req.body && Object.keys(req.body).length > 0`.  `express.json` yields
`{}` for an empty request body, whose key list is empty. -/
def jsKeysNonEmpty : Json → Bool
  | .obj fs => ¬ fs.isEmpty
  | .arr es => ¬ es.isEmpty
  | _ => false

/-- Responses of the config endpoints, which bypass `sendResponse`:
`res.json({success, message?, host?, config?})` with
`res.status(...)` for the failure branches. -/
structure ConfigResp where
  code : Nat
  success : Bool
  message : Option String
  config : Option Json

/-- `app.post("/config")` (`server.js` lines 297-321).  A nonempty body
is validated and written atomically by `saveConfigAtomic` (write to a
temp path, then rename — modelled as replacing the tenant's config
value).  An empty body takes the branch
`JSON.parse(fs.readFileSync(DEFAULT_CONFIG, "utf-8"))`, but the
identifier `DEFAULT_CONFIG` is defined nowhere in the program, so the
branch throws a `ReferenceError` which the surrounding `catch` maps to
the 500 "Error saving configuration" response and nothing is
persisted. -/
def postConfig (cfgs : Configs) (key : String) (body : Json) :
    ConfigResp × Configs :=
  if jsKeysNonEmpty body then
    if validateConfig body then
      (⟨200, true, some "Config saved successfully", some body⟩,
       setBlob cfgs key body)
    else (⟨400, false, some "Invalid config format", none⟩, cfgs)
  else
    (⟨500, false, some "Error saving configuration", none⟩, cfgs)

/-! ## JSON parsing, for the raw-content model of `readMeta`

The self-healing claims are about what `readMeta` does to the raw bytes
of `fileIndex.json`, so `JSON.parse` is embedded as an executable
recursive-descent parser over the character list; `none` models the
`SyntaxError` that `JSON.parse` throws. -/

/-- JSON whitespace (RFC 8259: space, tab, line feed, carriage return). -/
def jsonWs (c : Char) : Bool :=
  c = ' ' || c = '\t' || c = '\n' || c = '\r'

/-- Drops leading JSON whitespace. -/
def skipWs (cs : List Char) : List Char := cs.dropWhile jsonWs

/-- Value of a hexadecimal digit. -/
def hexVal (c : Char) : Option Nat :=
  if c.isDigit then some (c.toNat - '0'.toNat)
  else if 'a' ≤ c ∧ c ≤ 'f' then some (c.toNat - 'a'.toNat + 10)
  else if 'A' ≤ c ∧ c ≤ 'F' then some (c.toNat - 'A'.toNat + 10)
  else none

/-- Single-character JSON escapes. -/
def escChar (c : Char) : Option Char :=
  if c = '"' then some '"'
  else if c = '\\' then some '\\'
  else if c = '/' then some '/'
  else if c = 'b' then some '\x08'
  else if c = 'f' then some '\x0c'
  else if c = 'n' then some '\n'
  else if c = 'r' then some '\r'
  else if c = 't' then some '\t'
  else none

/-- Body of a JSON string literal after the opening quote, up to the
closing quote; handles the standard escapes and `\uXXXX`. -/
def parseStrBody (fuel : Nat) (cs : List Char) :
    Option (List Char × List Char) :=
  match fuel, cs with
  | 0, _ => none
  | _, [] => none
  | fuel + 1, c :: rest =>
    if c = '"' then some ([], rest)
    else if c = '\\' then
      match rest with
      | 'u' :: a :: b :: c2 :: d :: rest2 =>
        match hexVal a, hexVal b, hexVal c2, hexVal d with
        | some h1, some h2, some h3, some h4 =>
          match parseStrBody fuel rest2 with
          | some (s, r) =>
              some (Char.ofNat (((h1 * 16 + h2) * 16 + h3) * 16 + h4) :: s, r)
          | none => none
        | _, _, _, _ => none
      | e :: rest2 =>
        match escChar e with
        | some ec =>
          match parseStrBody fuel rest2 with
          | some (s, r) => some (ec :: s, r)
          | none => none
        | none => none
      | [] => none
    else if c.toNat < 0x20 then none
    else
      match parseStrBody fuel rest with
      | some (s, r) => some (c :: s, r)
      | none => none

/-- Longest digit run at the front. -/
def spanDigits (cs : List Char) : List Char × List Char :=
  (cs.takeWhile Char.isDigit, cs.dropWhile Char.isDigit)

/-- Optional fraction part `.digits` of a JSON number. -/
def lexFrac (cs : List Char) : Option (List Char × List Char) :=
  match cs with
  | '.' :: rest =>
    let p := spanDigits rest
    if p.1.isEmpty then none else some ('.' :: p.1, p.2)
  | _ => some ([], cs)

/-- Optional exponent part `[eE][+-]?digits` of a JSON number. -/
def lexExp (cs : List Char) : Option (List Char × List Char) :=
  match cs with
  | e :: rest =>
    if e = 'e' ∨ e = 'E' then
      let signed :=
        match rest with
        | s :: rest2 => if s = '+' ∨ s = '-' then ([s], rest2) else ([], rest)
        | [] => ([], rest)
      let p := spanDigits signed.2
      if p.1.isEmpty then none else some (e :: signed.1 ++ p.1, p.2)
    else some ([], cs)
  | [] => some ([], cs)

/-- Integer part of a JSON number: `0` or a nonzero digit followed by
digits (no leading zeros). -/
def lexInt (cs : List Char) : Option (List Char × List Char) :=
  match cs with
  | '0' :: rest => some (['0'], rest)
  | c :: rest =>
    if c.isDigit then
      let p := spanDigits rest
      some (c :: p.1, p.2)
    else none
  | [] => none

/-- Lexes a JSON number, returning its lexeme verbatim. -/
def lexNumber (cs : List Char) : Option (List Char × List Char) :=
  let signed :=
    match cs with
    | '-' :: rest => (['-'], rest)
    | _ => ([], cs)
  match lexInt signed.2 with
  | none => none
  | some (ip, r1) =>
    match lexFrac r1 with
    | none => none
    | some (fp, r2) =>
      match lexExp r2 with
      | none => none
      | some (ep, r3) => some (signed.1 ++ ip ++ fp ++ ep, r3)

mutual

/-- Recursive-descent parse of one JSON value; fuel strictly decreases
on every call, and the initial allowance in `parseJson` is ample for
any input of the given length. -/
def parseVal : Nat → List Char → Option (Json × List Char)
  | 0, _ => none
  | fuel + 1, cs =>
    match skipWs cs with
    | 'n' :: 'u' :: 'l' :: 'l' :: rest => some (.null, rest)
    | 't' :: 'r' :: 'u' :: 'e' :: rest => some (.bool true, rest)
    | 'f' :: 'a' :: 'l' :: 's' :: 'e' :: rest => some (.bool false, rest)
    | '"' :: rest =>
      match parseStrBody (rest.length + 1) rest with
      | some (s, r) => some (.str (String.mk s), r)
      | none => none
    | '[' :: rest =>
      (match skipWs rest with
       | ']' :: r => some (.arr [], r)
       | _ =>
         match parseElems fuel rest with
         | some (es, r) => some (.arr es, r)
         | none => none)
    | '{' :: rest =>
      (match skipWs rest with
       | '}' :: r => some (.obj [], r)
       | _ =>
         match parseFields fuel rest with
         | some (fs, r) => some (.obj fs, r)
         | none => none)
    | other =>
      match lexNumber other with
      | some (lexeme, r) => some (.num (String.mk lexeme), r)
      | none => none

/-- Comma-separated values up to the closing `]`. -/
def parseElems : Nat → List Char → Option (List Json × List Char)
  | 0, _ => none
  | fuel + 1, cs =>
    match parseVal fuel cs with
    | none => none
    | some (v, r) =>
      match skipWs r with
      | ',' :: r2 =>
        (match parseElems fuel r2 with
         | some (es, r3) => some (v :: es, r3)
         | none => none)
      | ']' :: r2 => some ([v], r2)
      | _ => none

/-- Comma-separated `"key": value` pairs up to the closing `}`. -/
def parseFields : Nat → List Char →
    Option (List (String × Json) × List Char)
  | 0, _ => none
  | fuel + 1, cs =>
    match skipWs cs with
    | '"' :: rest =>
      (match parseStrBody (rest.length + 1) rest with
       | none => none
       | some (k, r) =>
         match skipWs r with
         | ':' :: r2 =>
           (match parseVal fuel r2 with
            | none => none
            | some (v, r3) =>
              match skipWs r3 with
              | ',' :: r4 =>
                (match parseFields fuel r4 with
                 | some (fs, r5) => some ((String.mk k, v) :: fs, r5)
                 | none => none)
              | '}' :: r4 => some ([(String.mk k, v)], r4)
              | _ => none)
         | _ => none)
    | _ => none

end

/-- `JSON.parse`: one JSON value spanning the whole input (up to
surrounding whitespace); `none` models the thrown `SyntaxError`. -/
def parseJson (s : String) : Option Json :=
  match parseVal (4 * s.length + 16) s.data with
  | some (j, rest) => if (skipWs rest).isEmpty then some j else none
  | none => none

/-! ## The raw-content model of `readMeta` (`server.js` lines 69-77) -/

/-- The bytes `writeMeta`-style healing writes:
`JSON.stringify([], null, 2)` serializes the empty array to `[]`. -/
def emptyMetaJson : String := "[]"

/-- JavaScript property read on a parsed object; `JSON.parse` keeps the
last occurrence of a duplicated key. -/
def jsField (fs : List (String × Json)) (k : String) : Option Json :=
  ((fs.filter (fun f => f.1 = k)).getLast?).map (fun f => f.2)

/-- String-valued field of a parsed object. -/
def jsStrField (fs : List (String × Json)) (k : String) : Option String :=
  match jsField fs k with
  | some (.str s) => some s
  | _ => none

/-- One index entry decoded from parsed JSON, with the five string
fields the handlers read. -/
def decodeRecord : Json → Option FileRecord
  | .obj fs =>
    match jsStrField fs "id", jsStrField fs "filename",
          jsStrField fs "displayName", jsStrField fs "createdAt",
          jsStrField fs "updatedAt" with
    | some i, some f, some d, some c, some u => some ⟨i, f, d, c, u⟩
    | _, _, _, _, _ => none
  | _ => none

/-- A whole index decoded from parsed JSON: an array of entries. -/
def decodeRecords : Json → Option (List FileRecord)
  | .arr es => es.mapM decodeRecord
  | _ => none

/-- `readMeta` (`server.js` lines 69-77; `server_latest.js` lines 37-47
is behaviourally identical), modelled on the raw index-file content:
`raw = content.trim()`; empty `raw` short-circuits to `[]` with no
write; a `JSON.parse` failure lands in the `catch`, which rewrites the
file to the empty collection and returns `[]`; a successful parse
returns the parsed value with no write.  The first component is `some`
of the returned record list, or `none` when the parsed JSON is not a
record array (the raw JS value is then returned to the caller, which
this typed model does not represent); the second component is the file
content after the call. -/
def readMeta (content : String) : Option (List FileRecord) × String :=
  let raw := trimWs content
  if raw = "" then (some [], content)
  else
    match parseJson raw with
    | none => (some [], emptyMetaJson)
    | some j => (decodeRecords j, content)

/-! ## Lemmas about the tenant store -/

theorem findTenant_setTenant_self (st : Store) (k : String) (ts : TenantState) :
    findTenant (setTenant st k ts) k = some ts := by
  induction st with
  | nil => simp [setTenant, findTenant]
  | cons hd tl ih =>
      obtain ⟨k', ts'⟩ := hd
      by_cases h : k' = k <;> simp [setTenant, findTenant, h, ih]

theorem findTenant_setTenant_ne (st : Store) (k k2 : String) (ts : TenantState)
    (h : k ≠ k2) : findTenant (setTenant st k ts) k2 = findTenant st k2 := by
  induction st with
  | nil => simp [setTenant, findTenant, h]
  | cons hd tl ih =>
      obtain ⟨k', ts'⟩ := hd
      by_cases hk : k' = k
      · subst hk; simp [setTenant, findTenant, h]
      · simp [setTenant, findTenant, hk, ih]

theorem findTenant_append_single_ne (st : Store) (k k2 : String)
    (ts : TenantState) (h : k ≠ k2) :
    findTenant (st ++ [(k, ts)]) k2 = findTenant st k2 := by
  induction st with
  | nil => simp [findTenant, h]
  | cons hd tl ih =>
      obtain ⟨k', ts'⟩ := hd
      by_cases hk : k' = k2 <;> simp [findTenant, hk, ih]

theorem findTenant_append_single_self (st : Store) (k : String)
    (ts : TenantState) (h : findTenant st k = none) :
    findTenant (st ++ [(k, ts)]) k = some ts := by
  induction st with
  | nil => simp [findTenant]
  | cons hd tl ih =>
      obtain ⟨k', ts'⟩ := hd
      by_cases hk : k' = k
      · simp [findTenant, hk] at h
      · simp [findTenant, hk] at h ⊢; exact ih h

theorem findTenant_ensureTenant_ne (st : Store) (k k2 : String) (h : k ≠ k2) :
    findTenant (ensureTenant st k) k2 = findTenant st k2 := by
  unfold ensureTenant
  cases hf : findTenant st k with
  | some ts => rfl
  | none => exact findTenant_append_single_ne st k k2 emptyTenant h

theorem ensureTenant_of_found (st : Store) (k : String) (ts : TenantState)
    (h : findTenant st k = some ts) : ensureTenant st k = st := by
  unfold ensureTenant; rw [h]

theorem getTenant_ensure (st : Store) (k : String) :
    getTenant (ensureTenant st k) k = getTenant st k := by
  unfold ensureTenant getTenant
  cases hf : findTenant st k with
  | some ts => rw [hf]
  | none => rw [findTenant_append_single_self st k emptyTenant hf]; rfl

theorem getBlob_setBlob_self (bs : Blobs) (fn : String) (j : Json) :
    getBlob (setBlob bs fn j) fn = some j := by
  induction bs with
  | nil => simp [setBlob, getBlob]
  | cons hd tl ih =>
      obtain ⟨f, j'⟩ := hd
      by_cases h : f = fn <;> simp [setBlob, getBlob, h, ih]

theorem findTenant_saveJson_ne (st : Store) (k1 k2 : String)
    (dn : Option String) (d : Option Json) (nA nB nid : String)
    (h : k1 ≠ k2) :
    findTenant (saveJson st k1 dn d nA nB nid).2 k2 = findTenant st k2 := by
  have h1 := findTenant_ensureTenant_ne st k1 k2 h
  have h2 : ∀ ts', findTenant (setTenant (ensureTenant st k1) k1 ts') k2
      = findTenant st k2 :=
    fun ts' => (findTenant_setTenant_ne _ _ _ _ h).trans h1
  unfold saveJson
  dsimp only
  repeat' split
  all_goals first
    | exact h1
    | exact h2 _

theorem listFiles_fst_congr (st st' : Store) (k : String)
    (h : findTenant st k = findTenant st' k) :
    (listFiles st k).1 = (listFiles st' k).1 := by
  have hg : getTenant st k = getTenant st' k := by unfold getTenant; rw [h]
  simp only [listFiles, getTenant_ensure, hg]

theorem getFile_fst_congr (st st' : Store) (k id : String)
    (h : findTenant st k = findTenant st' k) :
    (getFile st k id).1 = (getFile st' k id).1 := by
  have hg : getTenant st k = getTenant st' k := by unfold getTenant; rw [h]
  simp only [getFile, getTenant_ensure, hg]
  rcases hf : List.find? (fun m => decide (m.id = id)) (getTenant st' k).meta
    with _ | fm
  · simp only [hf]
  · rcases hb : getBlob (getTenant st' k).blobs fm.filename with _ | j <;>
      simp only [hf, hb]

theorem fsSafe_sanitizeChar (c : Char) : fsSafe (sanitizeChar c) = true := by
  unfold sanitizeChar fsSafe
  split
  · decide
  · split
    · rename_i h2; simp [h2]
    · decide

/-- C3 (sanitization of the resolved tenant key): every character of
`sanitizeHost`'s output lies in the filesystem-safe class
`[A-Za-z0-9.-_]`, and every input character outside `[A-Za-z0-9.-]`
other than `:` (which the first `replace` maps to `-`) is replaced by
`_`. -/
theorem sanitizeHost_safe (s : String) (c : Char) :
    (c ∈ (sanitizeHost s).data → fsSafe c = true) ∧
    (hostAllowed c = false → c ≠ ':' → sanitizeChar c = '_') := by
  constructor
  · intro hc
    have hdata : (sanitizeHost s).data = s.data.map sanitizeChar := rfl
    rw [hdata, List.mem_map] at hc
    obtain ⟨c', _, rfl⟩ := hc
    exact fsSafe_sanitizeChar c'
  · intro h hne
    unfold sanitizeChar
    simp [hne, h]

/-- Witness for `sanitizeHost_safe`: concrete instantiations of both
conjuncts. -/
theorem sanitizeHost_safe_witness :
    fsSafe 'h' = true ∧ sanitizeChar '/' = '_' :=
  ⟨(sanitizeHost_safe "http" 'h').1 (by decide),
   (sanitizeHost_safe "" '/').2 (by decide) (by decide)⟩

/-- C10 (default-port collapse in origin resolution): whenever the
parsed origin exposes no port (`url.port` empty, which covers both an
omitted port and an explicit default port), the resolver substitutes
the literal `"80"` regardless of scheme, so any two such origins with
the same hostname — e.g. `http://h`, `http://h:80` and `https://h` —
yield the same tenant key `sanitizeHost (hostname ++ ":80")`. -/
theorem origin_default_port (o1 o2 : String) (u1 u2 : URLInfo)
    (h1 : parseOriginURL o1 = some u1) (h2 : parseOriginURL o2 = some u2)
    (hp1 : u1.port = "") (hp2 : u2.port = "")
    (hh : u1.hostname = u2.hostname) :
    originTenantKey o1 = originTenantKey o2 ∧
    originTenantKey o1 = some (sanitizeHost (u1.hostname ++ ":" ++ "80")) := by
  unfold originTenantKey
  rw [h1, h2]
  simp [hp1, hp2, hh]

/-- Witness for `origin_default_port`: the three concrete origins of
the claim collapse to the tenant key `h-80`. -/
theorem origin_default_port_witness :
    originTenantKey "http://h" = originTenantKey "http://h:80" ∧
    originTenantKey "https://h" = originTenantKey "http://h" ∧
    getEffectiveHost ⟨none, some "http://h", "x"⟩ = "h-80" :=
  ⟨(origin_default_port "http://h" "http://h:80" ⟨"http", "h", ""⟩
      ⟨"http", "h", ""⟩ rfl rfl rfl rfl rfl).1,
   (origin_default_port "https://h" "http://h" ⟨"https", "h", ""⟩
      ⟨"http", "h", ""⟩ rfl rfl rfl rfl rfl).1,
   rfl⟩

/-- C9 (config put empty-body fallback): at the failing input — an
empty request body — `POST /config` does not persist a default
template; the fallback branch evaluates the undefined identifier
`DEFAULT_CONFIG`, throws, and the handler answers 500
"Error saving configuration" with the config store unchanged. -/
theorem postConfig_empty_body_500 (cfgs : Configs) (k : String) :
    postConfig cfgs k (Json.obj [])
      = (⟨500, false, some "Error saving configuration", none⟩, cfgs) := rfl

/-- C2 (amended, self-healing index load): non-empty content that fails
to parse is overwritten with the serialized empty collection `[]` and
the call returns the empty record list; empty (whitespace-only) content
returns the empty list but leaves the file content untouched; the
concrete garbage content `garbage!!` heals to `[]`, which parses back
as the empty collection. -/
theorem readMeta_self_healing (c : String) :
    (trimWs c ≠ "" → parseJson (trimWs c) = none →
        readMeta c = (some [], emptyMetaJson)) ∧
    (trimWs c = "" → readMeta c = (some [], c)) ∧
    readMeta "garbage!!" = (some [], emptyMetaJson) ∧
    parseJson emptyMetaJson = some (Json.arr []) ∧
    decodeRecords (Json.arr []) = some [] := by
  refine ⟨?_, ?_, rfl, rfl, rfl⟩
  · intro h1 h2
    unfold readMeta
    simp [h1, h2]
  · intro h1
    unfold readMeta
    simp [h1]

/-- Witness for `readMeta_self_healing`: healing on the concrete
unparseable content `@@`. -/
theorem readMeta_self_healing_witness :
    readMeta "@@" = (some [], emptyMetaJson) :=
  (readMeta_self_healing "@@").1 (by decide) rfl

/-- C2 counterexample: on empty index content, `readMeta` returns the
empty list but does not overwrite the file — the content stays empty
and does not parse as an (empty) collection, contradicting the claim
that empty content is rewritten to an empty collection. -/
theorem readMeta_empty_counterexample :
    readMeta "" = (some [], "") ∧ parseJson "" = none ∧
    ("" : String) ≠ emptyMetaJson :=
  ⟨rfl, rfl, by decide⟩

/-- C1 (tenant isolation): a `save` executed under tenant key `k1`
leaves both `list` and `get` under any other tenant key `k2`
unchanged — every operation resolves its index and blob files solely
from its own tenant key, so a document saved under `k1` is never
returned by `k2`'s `list` or `get`. -/
theorem tenant_isolation (st : Store) (k1 k2 : String) (dn : Option String)
    (d : Option Json) (nA nB nid : String) (hne : k1 ≠ k2) :
    (listFiles (saveJson st k1 dn d nA nB nid).2 k2).1
        = (listFiles st k2).1 ∧
    ∀ id, (getFile (saveJson st k1 dn d nA nB nid).2 k2 id).1
        = (getFile st k2 id).1 := by
  have hf := findTenant_saveJson_ne st k1 k2 dn d nA nB nid hne
  exact ⟨listFiles_fst_congr _ _ _ hf, fun id => getFile_fst_congr _ _ _ _ hf⟩

/-- Witness for `tenant_isolation`: a concrete save under `a-80` is
invisible to `b-80`. -/
theorem tenant_isolation_witness :
    (getFile (saveJson [] "a-80" (some "q1") (some (Json.obj []))
        "t" "t" "id1").2 "b-80" "id1").1
      = (getFile ([] : Store) "b-80" "id1").1 :=
  (tenant_isolation [] "a-80" "b-80" (some "q1") (some (Json.obj []))
    "t" "t" "id1" (by decide)).2 "id1"

/-- C5 (display-name uniqueness on save): in the host-scoped variant,
which enforces unique display names, a save whose `displayName` already
occurs among the tenant's current records answers 400 "Report name
already used, choose another" and leaves the store exactly as it was —
no record and no blob is added. -/
theorem save_duplicate_name (st : Store) (k name : String) (d : Json)
    (nA nB nid : String) (ts : TenantState)
    (hts : findTenant st k = some ts)
    (hobj : d.isObjLike = true)
    (hname : trimWs name ≠ "")
    (hdup : ts.meta.any (fun f => f.displayName = name) = true) :
    saveJson st k (some name) (some d) nA nB nid
      = (⟨false, none, "Report name already used, choose another", 400⟩,
         st) := by
  have hget : getTenant st k = ts := by unfold getTenant; rw [hts]; rfl
  unfold saveJson
  dsimp only
  rw [ensureTenant_of_found st k ts hts, hget]
  simp [hobj, hname, hdup]

/-- Witness for `save_duplicate_name`: a second save of `q1` in a
tenant that already holds a record named `q1` is rejected and changes
nothing. -/
theorem save_duplicate_name_witness :
    saveJson [("h-80", (⟨[⟨"id0", "id0.json", "q1", "t", "t"⟩],
        [("id0.json", Json.obj [])]⟩ : TenantState))] "h-80"
        (some "q1") (some (Json.obj [])) "t2" "t2" "id1"
      = (⟨false, none, "Report name already used, choose another", 400⟩,
         [("h-80", (⟨[⟨"id0", "id0.json", "q1", "t", "t"⟩],
            [("id0.json", Json.obj [])]⟩ : TenantState))]) :=
  save_duplicate_name _ "h-80" "q1" (Json.obj []) "t2" "t2" "id1"
    ⟨[⟨"id0", "id0.json", "q1", "t", "t"⟩], [("id0.json", Json.obj [])]⟩
    rfl rfl (by decide) (by decide)

theorem find?_append_singleton {α : Type} (l : List α) (r : α) (p : α → Bool)
    (h : ∀ x ∈ l, p x = false) (hr : p r = true) :
    (l ++ [r]).find? p = some r := by
  induction l with
  | nil => simp [List.find?, hr]
  | cons x xs ih =>
      have hx := h x (List.mem_cons_self x xs)
      simp only [List.cons_append, List.find?, hx]
      exact ih (fun y hy => h y (List.mem_cons_of_mem x hy))

/-- C4 (round-trip): a valid `save` of payload `d` (object payload,
fresh nonempty display name, fresh generated id) succeeds, and an
immediately following `get` on the returned record's id under the same
tenant succeeds and returns exactly `d`. -/
theorem save_get_roundtrip (st : Store) (k name : String) (d : Json)
    (nA nB nid : String)
    (hobj : d.isObjLike = true)
    (hname : trimWs name ≠ "")
    (hdup : (getTenant st k).meta.any (fun f => f.displayName = name) = false)
    (hfresh : ∀ m ∈ (getTenant st k).meta, m.id ≠ nid) :
    (saveJson st k (some name) (some d) nA nB nid).1
      = ⟨true, some ⟨nid, nid ++ ".json", name, nA, nB⟩,
         "JSON saved successfully for host " ++ k, 200⟩ ∧
    (getFile (saveJson st k (some name) (some d) nA nB nid).2 k nid).1
      = ⟨true, some (⟨nid, nid ++ ".json", name, nA, nB⟩, d),
         "File retrieved for host " ++ k, 200⟩ := by
  have hsave : saveJson st k (some name) (some d) nA nB nid
      = (⟨true, some ⟨nid, nid ++ ".json", name, nA, nB⟩,
          "JSON saved successfully for host " ++ k, 200⟩,
         setTenant (ensureTenant st k) k
           ⟨(getTenant st k).meta ++ [⟨nid, nid ++ ".json", name, nA, nB⟩],
            setBlob (getTenant st k).blobs (nid ++ ".json") d⟩) := by
    unfold saveJson
    dsimp only
    rw [getTenant_ensure]
    simp [hobj, hname, hdup]
  refine ⟨by rw [hsave], ?_⟩
  rw [hsave]
  have hget : getTenant (setTenant (ensureTenant st k) k
      ⟨(getTenant st k).meta ++ [⟨nid, nid ++ ".json", name, nA, nB⟩],
       setBlob (getTenant st k).blobs (nid ++ ".json") d⟩) k
      = ⟨(getTenant st k).meta ++ [⟨nid, nid ++ ".json", name, nA, nB⟩],
         setBlob (getTenant st k).blobs (nid ++ ".json") d⟩ := by
    unfold getTenant
    rw [findTenant_setTenant_self]
    rfl
  unfold getFile
  dsimp only
  rw [getTenant_ensure, hget]
  rw [find?_append_singleton _ _ _
    (fun m hm => decide_eq_false (hfresh m hm)) (by simp)]
  dsimp only
  rw [getBlob_setBlob_self]

/-- Witness for `save_get_roundtrip`: a concrete save-then-get on a
fresh tenant returns the saved payload. -/
theorem save_get_roundtrip_witness :
    (getFile (saveJson [] "h-80" (some "q1")
        (some (Json.obj [("a", Json.num "1")])) "t" "t" "id1").2
      "h-80" "id1").1
      = ⟨true, some (⟨"id1", "id1" ++ ".json", "q1", "t", "t"⟩,
          Json.obj [("a", Json.num "1")]),
         "File retrieved for host " ++ "h-80", 200⟩ :=
  (save_get_roundtrip [] "h-80" "q1" (Json.obj [("a", Json.num "1")])
    "t" "t" "id1" rfl (by decide) rfl
    (by intro m hm; simp [getTenant, findTenant, emptyTenant] at hm)).2

theorem find?_filter_removed (l : List FileRecord) (id : String) :
    (l.filter (fun m => m.id ≠ id)).find? (fun m => m.id = id) = none := by
  induction l with
  | nil => rfl
  | cons x xs ih =>
      by_cases h : x.id = id
      · simp [List.filter_cons, h, ih]
      · simp [List.filter_cons, h, List.find?, ih]

/-- C6 (delete idempotence): deleting an id with no matching record
answers 404 "File not found" (in particular a second delete of a just
deleted id answers 404, it does not crash); and when the record exists
but its blob file is already missing, delete still succeeds, removes
the record from the index, and persists the new tenant state. -/
theorem delete_idempotent (st : Store) (k id : String) :
    ((getTenant st k).meta.find? (fun m => m.id = id) = none →
        (deleteFile st k id).1 = ⟨false, none, "File not found", 404⟩) ∧
    ((deleteFile st k id).1.status = true →
        (deleteFile (deleteFile st k id).2 k id).1
          = ⟨false, none, "File not found", 404⟩) ∧
    (∀ fm, (getTenant st k).meta.find? (fun m => m.id = id) = some fm →
        getBlob (getTenant st k).blobs fm.filename = none →
        (deleteFile st k id).1
            = ⟨true, some id, "File deleted successfully for host " ++ k,
               200⟩ ∧
          findTenant (deleteFile st k id).2 k
            = some ⟨(getTenant st k).meta.filter (fun m => m.id ≠ id),
                    removeBlob (getTenant st k).blobs fm.filename⟩) := by
  refine ⟨?_, ?_, ?_⟩
  · intro h
    unfold deleteFile
    dsimp only
    rw [getTenant_ensure]
    simp [h]
  · intro hsucc
    rcases hf : (getTenant st k).meta.find? (fun m => m.id = id) with _ | fm
    · exfalso
      unfold deleteFile at hsucc
      dsimp only at hsucc
      rw [getTenant_ensure] at hsucc
      simp [hf] at hsucc
    · have h2 : (deleteFile st k id).2
          = setTenant (ensureTenant st k) k
              ⟨(getTenant st k).meta.filter (fun m => m.id ≠ id),
               removeBlob (getTenant st k).blobs fm.filename⟩ := by
        unfold deleteFile
        dsimp only
        rw [getTenant_ensure]
        simp [hf]
      rw [h2]
      have hget : getTenant (setTenant (ensureTenant st k) k
          ⟨(getTenant st k).meta.filter (fun m => m.id ≠ id),
           removeBlob (getTenant st k).blobs fm.filename⟩) k
          = ⟨(getTenant st k).meta.filter (fun m => m.id ≠ id),
             removeBlob (getTenant st k).blobs fm.filename⟩ := by
        unfold getTenant
        rw [findTenant_setTenant_self]
        rfl
      unfold deleteFile
      dsimp only
      rw [getTenant_ensure, hget, find?_filter_removed]
  · intro fm hf hb
    have hd : deleteFile st k id
        = (⟨true, some id, "File deleted successfully for host " ++ k, 200⟩,
           setTenant (ensureTenant st k) k
             ⟨(getTenant st k).meta.filter (fun m => m.id ≠ id),
              removeBlob (getTenant st k).blobs fm.filename⟩) := by
      unfold deleteFile
      dsimp only
      rw [getTenant_ensure]
      simp [hf]
    rw [hd]
    exact ⟨rfl, findTenant_setTenant_self _ _ _⟩

/-- Witness for `delete_idempotent`: deleting a record whose blob file
is already missing still succeeds and removes the record. -/
theorem delete_idempotent_witness :
    (deleteFile [("h-80", (⟨[⟨"id0", "id0.json", "q1", "t", "t"⟩],
        []⟩ : TenantState))] "h-80" "id0").1
      = ⟨true, some "id0", "File deleted successfully for host " ++ "h-80",
         200⟩ :=
  ((delete_idempotent [("h-80", ⟨[⟨"id0", "id0.json", "q1", "t", "t"⟩], []⟩)]
    "h-80" "id0").2.2 ⟨"id0", "id0.json", "q1", "t", "t"⟩ rfl rfl).1

/-- C7 counterexample: in the host-scoped variant, a PUT that supplies
the non-object payload `"oops"` does not fail with `InvalidPayload` —
it answers 200, refreshes `updatedAt`, and leaves the blob unchanged. -/
theorem update_invalid_payload_counterexample :
    (putFile [("h-80", (⟨[⟨"id0", "id0.json", "q1", "t", "t"⟩],
        [("id0.json", Json.obj [])]⟩ : TenantState))] "h-80" "id0"
        (some (Json.str "oops")) none "t2").1.statusCode = 200 ∧
    (putFile [("h-80", (⟨[⟨"id0", "id0.json", "q1", "t", "t"⟩],
        [("id0.json", Json.obj [])]⟩ : TenantState))] "h-80" "id0"
        (some (Json.str "oops")) none "t2").1.status = true ∧
    findTenant (putFile [("h-80", (⟨[⟨"id0", "id0.json", "q1", "t", "t"⟩],
        [("id0.json", Json.obj [])]⟩ : TenantState))] "h-80" "id0"
        (some (Json.str "oops")) none "t2").2 "h-80"
      = some ⟨[⟨"id0", "id0.json", "q1", "t", "t2"⟩],
              [("id0.json", Json.obj [])]⟩ :=
  ⟨rfl, rfl, rfl⟩

/-- C7 (amended): the single-tenant latest variant rejects a missing or
non-object payload up front with 400 "Invalid JSON format" and changes
nothing; in the host-scoped variant an update whose payload is a JSON
object overwrites the blob with it, while a supplied non-object payload
is silently ignored — the update succeeds and the blob is left
unchanged. -/
theorem update_payload_validation :
    (∀ (ts : TenantState) (id : String) (d : Option Json)
        (dn : Option String) (now : String),
        d.elim false Json.isObjLike = false →
        putFileLatest ts id d dn now
          = (⟨false, none, "Invalid JSON format", 400⟩, ts)) ∧
    (∀ (st : Store) (k id : String) (dobj : Json) (now : String)
        (fm : FileRecord) (j : Json),
        (getTenant st k).meta.find? (fun m => m.id = id) = some fm →
        getBlob (getTenant st k).blobs fm.filename = some j →
        dobj.isObjLike = true →
        findTenant (putFile st k id (some dobj) none now).2 k
          = some ⟨updateFirstById id (fun m =>
                    { m with displayName := fm.displayName,
                             updatedAt := now }) (getTenant st k).meta,
                  setBlob (getTenant st k).blobs fm.filename dobj⟩) ∧
    (∀ (st : Store) (k id : String) (d0 : Json) (now : String)
        (fm : FileRecord) (j : Json),
        (getTenant st k).meta.find? (fun m => m.id = id) = some fm →
        getBlob (getTenant st k).blobs fm.filename = some j →
        d0.isObjLike = false →
        (putFile st k id (some d0) none now).1.status = true ∧
        findTenant (putFile st k id (some d0) none now).2 k
          = some ⟨updateFirstById id (fun m =>
                    { m with displayName := fm.displayName,
                             updatedAt := now }) (getTenant st k).meta,
                  (getTenant st k).blobs⟩) := by
  refine ⟨?_, ?_, ?_⟩
  · intro ts id d dn now h
    cases d with
    | none => rfl
    | some x =>
        simp only [Option.elim] at h
        unfold putFileLatest
        simp [h]
  · intro st k id dobj now fm j hf hb hobj
    have hput : putFile st k id (some dobj) none now
        = (⟨true, some { fm with displayName := fm.displayName,
                                 updatedAt := now },
            "File updated successfully for host " ++ k, 200⟩,
           setTenant (ensureTenant st k) k
             ⟨updateFirstById id (fun m =>
                { m with displayName := fm.displayName,
                         updatedAt := now }) (getTenant st k).meta,
              setBlob (getTenant st k).blobs fm.filename dobj⟩) := by
      unfold putFile finishPut
      dsimp only
      rw [getTenant_ensure]
      simp [hf, hb, hobj]
    rw [hput]
    exact findTenant_setTenant_self _ _ _
  · intro st k id d0 now fm j hf hb hobj
    have hput : putFile st k id (some d0) none now
        = (⟨true, some { fm with displayName := fm.displayName,
                                 updatedAt := now },
            "File updated successfully for host " ++ k, 200⟩,
           setTenant (ensureTenant st k) k
             ⟨updateFirstById id (fun m =>
                { m with displayName := fm.displayName,
                         updatedAt := now }) (getTenant st k).meta,
              (getTenant st k).blobs⟩) := by
      unfold putFile finishPut
      dsimp only
      rw [getTenant_ensure]
      simp [hf, hb, hobj]
    rw [hput]
    exact ⟨rfl, findTenant_setTenant_self _ _ _⟩

/-- Witness for `update_payload_validation`: the latest variant rejects
a concrete string payload. -/
theorem update_payload_validation_witness :
    putFileLatest ⟨[], []⟩ "x" (some (Json.str "s")) none "t"
      = (⟨false, none, "Invalid JSON format", 400⟩,
         (⟨[], []⟩ : TenantState)) :=
  update_payload_validation.1 ⟨[], []⟩ "x" (some (Json.str "s")) none "t" rfl

/-- C8 (amended, save timestamps): `createdAt` and `updatedAt` come
from two separate consecutive `new Date().toISOString()` reads at save
time; whenever both reads return the same timestamp `now` (they fall in
the same millisecond), the returned record and the record appended to
the index satisfy `createdAt = updatedAt = now`. -/
theorem save_timestamps (st : Store) (k name : String) (d : Json)
    (now nid : String)
    (hobj : d.isObjLike = true)
    (hname : trimWs name ≠ "")
    (hdup : (getTenant st k).meta.any (fun f => f.displayName = name)
        = false) :
    (saveJson st k (some name) (some d) now now nid).1
      = ⟨true, some ⟨nid, nid ++ ".json", name, now, now⟩,
         "JSON saved successfully for host " ++ k, 200⟩ ∧
    findTenant (saveJson st k (some name) (some d) now now nid).2 k
      = some ⟨(getTenant st k).meta
                ++ [⟨nid, nid ++ ".json", name, now, now⟩],
              setBlob (getTenant st k).blobs (nid ++ ".json") d⟩ := by
  have hsave : saveJson st k (some name) (some d) now now nid
      = (⟨true, some ⟨nid, nid ++ ".json", name, now, now⟩,
          "JSON saved successfully for host " ++ k, 200⟩,
         setTenant (ensureTenant st k) k
           ⟨(getTenant st k).meta ++ [⟨nid, nid ++ ".json", name, now, now⟩],
            setBlob (getTenant st k).blobs (nid ++ ".json") d⟩) := by
    unfold saveJson
    dsimp only
    rw [getTenant_ensure]
    simp [hobj, hname, hdup]
  rw [hsave]
  exact ⟨rfl, findTenant_setTenant_self _ _ _⟩

/-- Witness for `save_timestamps`: a concrete save with coinciding
clock reads yields equal timestamps. -/
theorem save_timestamps_witness :
    (saveJson [] "h-80" (some "q1") (some (Json.obj [])) "t0" "t0"
        "id1").1
      = ⟨true, some ⟨"id1", "id1" ++ ".json", "q1", "t0", "t0"⟩,
         "JSON saved successfully for host " ++ "h-80", 200⟩ :=
  (save_timestamps [] "h-80" "q1" (Json.obj []) "t0" "id1" rfl (by decide)
    rfl).1

/-- C8 counterexample: a successful save whose two clock reads straddle
a millisecond boundary returns a record with `createdAt ≠ updatedAt`,
refuting the claim as stated for every successful save. -/
theorem save_timestamps_counterexample :
    (saveJson [] "h-80" (some "q1") (some (Json.obj []))
        "2026-01-01T00:00:00.001Z" "2026-01-01T00:00:00.002Z"
        "id1").1.status = true ∧
    (saveJson [] "h-80" (some "q1") (some (Json.obj []))
        "2026-01-01T00:00:00.001Z" "2026-01-01T00:00:00.002Z"
        "id1").1.data
      = some ⟨"id1", "id1.json", "q1", "2026-01-01T00:00:00.001Z",
              "2026-01-01T00:00:00.002Z"⟩ ∧
    ("2026-01-01T00:00:00.001Z" : String) ≠ "2026-01-01T00:00:00.002Z" :=
  ⟨rfl, rfl, by decide⟩

end ChartBackend
